import Mathlib

/-!
Shallow embedding of the goacmedns library (an ACME-DNS client plus a
file-backed credential storage) for checking its specification.

The embedding covers:
* `client.go` — `Client.RegisterAccount`, `Client.UpdateTXTRecord`,
  `Client.do` (embedded as `Client.doRequest`, since `do` is a Lean
  keyword) and `newRequest`;
* the `ClientError` type and `newClientError`;
* `storage/file.go` — `NewFile`, `File.Put`, `File.Fetch`, `File.Save`.

JSON payloads and file contents are modelled at the level of JSON values
(`Json` below); the byte-level rendering performed by Go's
`encoding/json` is injective on these values, so nothing is lost for the
properties considered here.  HTTP transport is external to the library,
so responses (and transport failures) enter the model as parameters.
-/

namespace GoAcmeDns

/-- A JSON value, as produced/consumed by Go's `encoding/json` for the
concrete payload types of this library (strings, arrays of strings,
objects, and `null` for the encoding of a nil pointer). -/
inductive Json where
  | null : Json
  | str : String → Json
  | arr : List Json → Json
  | obj : List (String × Json) → Json

/-- Look a key up among the fields of a JSON object.  Go's decoder lets a
later duplicate key win, hence the fold keeping the last match. -/
def jsonField (fields : List (String × Json)) (key : String) : Option Json :=
  fields.foldl (fun acc kv => if kv.1 = key then some kv.2 else acc) none

/-- Field access on a JSON value: only objects have fields. -/
def Json.getField : Json → String → Option Json
  | .obj fields, key => jsonField fields key
  | _, _ => none

/-- Modelled from the spec: the Credential Record (`Account`, from the
repository's `account.go`, which is not among the provided sources).
Fields per spec §3; JSON keys per spec §6: `fulldomain`, `subdomain`,
`username`, `password`, `server_url`.  The Go zero value has every field
equal to the empty string. -/
structure Account where
  fullDomain : String
  subDomain : String
  username : String
  password : String
  serverURL : String
deriving DecidableEq, Repr

/-- The Go zero value `Account`: every field is the empty string. -/
def Account.zero : Account := ⟨"", "", "", "", ""⟩

instance : Inhabited Account := ⟨Account.zero⟩

/-- `json.Marshal` of an `Account`: an object keyed per the struct's JSON
tags, in struct field order. -/
def encodeAccount (a : Account) : Json :=
  .obj [("fulldomain", .str a.fullDomain),
        ("subdomain", .str a.subDomain),
        ("username", .str a.username),
        ("password", .str a.password),
        ("server_url", .str a.serverURL)]

/-- One string field of `json.Unmarshal` into an `Account`: an absent
key, a JSON `null`, or a non-string value leaves the field at its zero
value (Go's decoder records a type error but keeps decoding; the
surrounding code ignores that error). -/
def decodeStringField (fields : List (String × Json)) (key : String) : String :=
  match jsonField fields key with
  | some (.str s) => s
  | _ => ""

/-- `json.Unmarshal` of a JSON value into an `Account` (lenient,
field-by-field, as Go's decoder behaves when its returned error is
discarded).  A non-object value leaves the struct at its zero value. -/
def decodeAccount : Json → Account
  | .obj fields =>
    { fullDomain := decodeStringField fields "fulldomain"
      subDomain := decodeStringField fields "subdomain"
      username := decodeStringField fields "username"
      password := decodeStringField fields "password"
      serverURL := decodeStringField fields "server_url" }
  | _ => Account.zero

/-- `ClientError` from the library: operation message, HTTP status code,
and the raw response body bytes (modelled as a string). -/
structure ClientError where
  message : String
  httpStatus : Nat
  body : String
deriving DecidableEq, Repr

/-- A Go `error` value as observable through `errors.Unwrap`/`errors.As`:
either a `*ClientError`, a leaf error of some other type (e.g. a
transport `*url.Error`), or a wrapping error produced by
`fmt.Errorf("...: %w", inner)`. -/
inductive GoError where
  | clientError (e : ClientError)
  | basic (msg : String)
  | wrap (msg : String) (inner : GoError)
deriving DecidableEq, Repr

/-- `newClientError` from the library. -/
def newClientError (msg : String) (respCode : Nat) (respBody : String) : GoError :=
  .clientError ⟨msg, respCode, respBody⟩

/-- `errors.As(err, &clientError)`: the first `ClientError` found while
unwrapping the chain, if any. -/
def errorsAsClientError : GoError → Option ClientError
  | .clientError e => some e
  | .basic _ => none
  | .wrap _ inner => errorsAsClientError inner

/-- Whether `errors.As(err, &clientError)` succeeds: the caller-visible
error kind test separating `ClientError` from all other error types. -/
def GoError.isClientErrorType (e : GoError) : Bool :=
  (errorsAsClientError e).isSome

/-- An HTTP response as `Client.do` observes it: the status code and the
(fully read) raw body bytes. -/
structure HTTPResponse where
  status : Nat
  body : String
deriving DecidableEq, Repr

/-- The `Client`: its parsed base endpoint URL, modelled by the string
`url.URL.String()` renders it to.  The embedded `http.Client` performs
the network transport, which is external: each operation below takes the
transport's outcome as a parameter. -/
structure Client where
  baseURL : String
deriving DecidableEq, Repr

/-- `userAgent()`: the library identifier with the runtime OS and
architecture. -/
def userAgent (goos goarch : String) : String :=
  "goacmedns (" ++ goos ++ "; " ++ goarch ++ ")"

/-- `url.URL.JoinPath` for the two fixed single-segment calls the
library makes. -/
def joinPath (base seg : String) : String :=
  base ++ "/" ++ seg

/-- The `Register` payload struct (`AllowFrom` with JSON tag
`allowfrom`). -/
structure RegisterData where
  allowFrom : List String
deriving DecidableEq, Repr

/-- The `Update` payload struct (`SubDomain`/`Txt` with JSON tags
`subdomain`/`txt`). -/
structure UpdateData where
  subDomain : String
  txt : String
deriving DecidableEq, Repr

/-- The dynamic value behind `newRequest`'s `payload any` argument as the
two call sites supply it: a `*Register` (possibly a nil pointer — Go
wraps a typed nil pointer in a non-nil interface value) or a
`*Update`. -/
inductive Payload where
  | registerPtr (p : Option RegisterData)
  | updatePtr (p : UpdateData)
deriving DecidableEq, Repr

/-- `json.Encoder.Encode` on the payload interface: a nil `*Register`
encodes as JSON `null`; the structs encode as objects in struct field
order. -/
def encodePayload : Payload → Json
  | .registerPtr none => .null
  | .registerPtr (some r) => .obj [("allowfrom", .arr (r.allowFrom.map .str))]
  | .updatePtr u => .obj [("subdomain", .str u.subDomain), ("txt", .str u.txt)]

/-- `http.Header.Set`: replace the value under a key, or append it. -/
def setHeader : List (String × String) → String → String → List (String × String)
  | [], k, v => [(k, v)]
  | (k', v') :: rest, k, v =>
    if k' = k then (k, v) :: rest else (k', v') :: setHeader rest k v

/-- `http.Header.Get`. -/
def getHeader : List (String × String) → String → Option String
  | [], _ => none
  | (k', v') :: rest, k => if k' = k then some v' else getHeader rest k

/-- An outgoing HTTP request as `newRequest` builds it.  `body = none`
models the empty buffer of a nil `payload` interface; `body = some j`
models the buffer holding the JSON encoding of the payload. -/
structure Request where
  method : String
  url : String
  headers : List (String × String)
  body : Option Json

/-- The named field of a request's JSON body, when the body is a JSON
object having it. -/
def Request.bodyField (req : Request) (key : String) : Option Json :=
  match req.body with
  | some j => j.getField key
  | none => none

/-- `newRequest`: POST to the endpoint with the JSON-encoded payload,
setting `Accept`, `User-Agent`, the caller's extra headers, and
`Content-Type` when a payload interface is present.  (The iteration
order over the caller's header map is immaterial here: the library only
passes maps with distinct keys.) -/
def newRequest (goos goarch : String) (endpoint : String)
    (headers : List (String × String)) (payload : Option Payload) : Request :=
  let hs := setHeader (setHeader [] "Accept" "application/json")
    "User-Agent" (userAgent goos goarch)
  let hs := headers.foldl (fun acc kv => setHeader acc kv.1 kv.2) hs
  let hs := match payload with
    | some _ => setHeader hs "Content-Type" "application/json"
    | none => hs
  { method := "POST", url := endpoint, headers := hs,
    body := payload.map encodePayload }

/-- A Go slice of strings: `none` is the nil slice, `some l` a non-nil
slice with elements `l`. -/
def lenGo (s : Option (List String)) : Nat :=
  (s.getD []).length

/-- Lines 104–109 of `client.go` plus the `newRequest` call: the HTTP
request `RegisterAccount` constructs for a given allow-from slice.  Note
`register` stays a nil `*Register` whenever `len(allowFrom) == 0`, and
the interface passed to `newRequest` is non-nil either way. -/
def Client.registerRequest (c : Client) (goos goarch : String)
    (allowFrom : Option (List String)) : Request :=
  let register : Option RegisterData :=
    if 0 < lenGo allowFrom then some ⟨allowFrom.getD []⟩ else none
  newRequest goos goarch (joinPath c.baseURL "register") []
    (some (.registerPtr register))

/-- Lines 127–137 of `client.go` plus the `newRequest` call: the HTTP
request `UpdateTXTRecord` constructs. -/
def Client.updateRequest (c : Client) (goos goarch : String)
    (account : Account) (value : String) : Request :=
  newRequest goos goarch (joinPath c.baseURL "update")
    [("X-Api-User", account.username), ("X-Api-Key", account.password)]
    (some (.updatePtr ⟨account.subDomain, value⟩))

/-- `Client.do` (named `doRequest` since `do` is a Lean keyword).
`resp` is the transport's outcome (`httpClient.Do`); `result` is `none`
when the Go call passes a nil result pointer (Update) and
`some unmarshal` when it passes `&acct` (Register), `unmarshal`
standing for `json.Unmarshal` of the raw body into an `Account`.
The body is taken as already fully read: the `io.ReadAll` failure
branch, a transport-level condition, is outside this model. -/
def Client.doRequest (resp : Except GoError HTTPResponse)
    (result : Option (String → Option Account)) :
    Except GoError (Option Account) :=
  match resp with
  | .error e => .error (.wrap "failed to do req" e)
  | .ok r =>
    if r.status / 100 ≠ 2 then
      .error (newClientError "response error" r.status r.body)
    else
      match result with
      | none => .ok none
      | some unmarshal =>
        match unmarshal r.body with
        | none => .error (newClientError "failed to unmarshal response" r.status r.body)
        | some a => .ok (some a)

/-- `Client.RegisterAccount`, as the pair Go returns: the `Account` and
the error (`none` for Go's nil error).  `reqErr` models a failure of
`newRequest` (request construction); `resp` the transport outcome;
`unmarshal` the `json.Unmarshal` of the response body. -/
def Client.RegisterAccount (c : Client) (reqErr : Option GoError)
    (resp : Except GoError HTTPResponse)
    (unmarshal : String → Option Account) : Account × Option GoError :=
  match reqErr with
  | some e => (Account.zero, some e)
  | none =>
    match Client.doRequest resp (some unmarshal) with
    | .error e => (Account.zero, some (.wrap "failed to register account" e))
    | .ok oa => ({ oa.getD Account.zero with serverURL := c.baseURL }, none)

/-- `Client.UpdateTXTRecord`'s returned error (`none` for success). -/
def Client.UpdateTXTRecord (reqErr : Option GoError)
    (resp : Except GoError HTTPResponse) : Option GoError :=
  match reqErr with
  | some e => some e
  | none =>
    match Client.doRequest resp none with
    | .error e => some (.wrap "failed to update TXT record" e)
    | .ok _ => none

/-- The `ClientError` the caller can extract (via `errors.As`) from an
operation's returned error, if any. -/
def errClientOf : Option GoError → Option ClientError
  | some e => errorsAsClientError e
  | none => none

/-- The `ClientError` extractable from a `Client.do` outcome. -/
def doErrClient : Except GoError (Option Account) → Option ClientError
  | .error e => errorsAsClientError e
  | .ok _ => none

/-- The content of a file on disk, as `os.ReadFile` + `json.Unmarshal`
see it: either bytes that are not syntactically valid JSON (Go's
`Unmarshal` rejects those before touching its target), or a JSON
value. -/
inductive FileData where
  | invalid : FileData
  | json : Json → FileData

/-- The file system, from paths to their content; `none` means
`os.ReadFile` fails (file absent or unreadable). -/
def FS : Type := String → Option FileData

/-- `storage.File`: the path, the creation mode, and the in-memory
`map[string]goacmedns.Account`.  Go maps are unordered; the map is
represented by its canonical key-sorted association list — the order in
which `json.Marshal` serializes its keys.  `putEntry` below is map
assignment on this representation. -/
structure File where
  path : String
  mode : Nat
  accounts : List (String × Account)
deriving DecidableEq, Repr

/-- Map assignment `m[domain] = acct` on the canonical key-sorted
association-list representation: replace an existing key or insert in
order. -/
def putEntry (domain : String) (acct : Account) :
    List (String × Account) → List (String × Account)
  | [] => [(domain, acct)]
  | (k, v) :: rest =>
    if domain = k then (domain, acct) :: rest
    else if domain < k then (domain, acct) :: (k, v) :: rest
    else (k, v) :: putEntry domain acct rest

/-- Map lookup `m[domain]`. -/
def lookupEntry : List (String × Account) → String → Option Account
  | [], _ => none
  | (k, v) :: rest, d => if k = d then some v else lookupEntry rest d

/-- The distinguishable storage error conditions of `storage/file.go`:
`ErrDomainNotFound` from `Fetch`, or a wrapped write failure from
`Save`. -/
inductive StorageError where
  | errDomainNotFound : StorageError
  | writeFailure : StorageError
deriving DecidableEq, Repr

/-- `File.Put`: in-memory map assignment, no disk I/O; the returned
error is always nil. -/
def File.Put (f : File) (domain : String) (acct : Account) :
    File × Option StorageError :=
  ({ f with accounts := putEntry domain acct f.accounts }, none)

/-- `File.Fetch`: in-memory map lookup, no disk I/O; the zero `Account`
together with `ErrDomainNotFound` when the domain is absent. -/
def File.Fetch (f : File) (domain : String) : Account × Option StorageError :=
  match lookupEntry f.accounts domain with
  | some acct => (acct, none)
  | none => (Account.zero, some .errDomainNotFound)

/-- `json.Marshal` of the accounts map: a JSON object listing the
entries in key order (which the canonical representation already is). -/
def marshalAccounts (t : List (String × Account)) : Json :=
  .obj (t.map (fun kv => (kv.1, encodeAccount kv.2)))

/-- `File.Save` on its success path: `os.WriteFile` replaces the content
at the file's path with the serialized accounts map.  (`json.Marshal`
of a `map[string]Account` cannot fail; a failing `WriteFile` leaves the
file system unchanged and returns a wrapped error, a branch the claims
here do not touch.) -/
def File.Save (f : File) (fs : FS) : FS :=
  fun p => if p = f.path then some (.json (marshalAccounts f.accounts)) else fs p

/-- `json.Unmarshal` of a JSON value into the (empty) accounts map: a
top-level object assigns each entry, decoding values leniently (see
`decodeAccount`); any other top-level value leaves the map untouched
(`none` here), matching Go, where a top-level mismatch or `null` assigns
nothing. -/
def unmarshalAccounts : Json → Option (List (String × Account))
  | .obj entries =>
    some (entries.foldl (fun t kv => putEntry kv.1 (decodeAccount kv.2) t) [])
  | _ => none

/-- `storage.NewFile`: construct the storage, opportunistically loading
the accounts map from the path.  A read failure, syntactically invalid
JSON, or a non-object top-level value all leave the map empty;
construction itself never fails (the Go function always returns a
`*File`). -/
def NewFile (path : String) (mode : Nat) (fs : FS) : File :=
  let f : File := { path := path, mode := mode, accounts := [] }
  match fs path with
  | none => f
  | some .invalid => f
  | some (.json j) =>
    match unmarshalAccounts j with
    | some t => { f with accounts := t }
    | none => f

/-- Strict key order between entries of the canonical association-list
representation of the accounts map. -/
def keyLt (a b : String × Account) : Prop := a.1 < b.1

/-! ## Helper lemmas -/

lemma lookupEntry_putEntry_self (d : String) (r : Account) :
    ∀ l : List (String × Account), lookupEntry (putEntry d r l) d = some r := by
  intro l
  induction l with
  | nil => simp [putEntry, lookupEntry]
  | cons kv rest ih =>
    obtain ⟨k, v⟩ := kv
    by_cases h1 : d = k
    · simp [putEntry, h1, lookupEntry]
    · by_cases h2 : d < k
      · simp [putEntry, h1, h2, lookupEntry]
      · have h3 : ¬ k = d := fun he => h1 he.symm
        simp [putEntry, h1, h2, lookupEntry, h3, ih]

lemma putEntry_append (d : String) (r : Account) :
    ∀ acc : List (String × Account), (∀ kv ∈ acc, kv.1 < d) →
      putEntry d r acc = acc ++ [(d, r)] := by
  intro acc
  induction acc with
  | nil => intro _; rfl
  | cons kv rest ih =>
    intro h
    obtain ⟨k, v⟩ := kv
    have hk : k < d := h (k, v) (List.mem_cons_self _ _)
    have h1 : ¬ d = k := fun he => lt_irrefl k (he ▸ hk)
    have h2 : ¬ d < k := fun hlt => lt_asymm hk hlt
    simp only [putEntry, if_neg h1, if_neg h2, List.cons_append, List.cons.injEq,
      true_and]
    exact ih (fun kv hm => h kv (List.mem_cons_of_mem _ hm))

lemma foldl_putEntry_eq_append :
    ∀ (t acc : List (String × Account)), t.Pairwise keyLt →
      (∀ a ∈ acc, ∀ b ∈ t, a.1 < b.1) →
      t.foldl (fun m kv => putEntry kv.1 kv.2 m) acc = acc ++ t := by
  intro t
  induction t with
  | nil => intro acc _ _; simp
  | cons kv rest ih =>
    intro acc hp hlt
    have hput : putEntry kv.1 kv.2 acc = acc ++ [kv] := by
      obtain ⟨k, v⟩ := kv
      exact putEntry_append _ _ _ (fun a ha => hlt a ha (k, v) (List.mem_cons_self _ _))
    have hlt' : ∀ a ∈ acc ++ [kv], ∀ b ∈ rest, a.1 < b.1 := by
      intro a ha b hb
      rcases List.mem_append.mp ha with hacc | hkv
      · exact hlt a hacc b (List.mem_cons_of_mem _ hb)
      · have ha' : a = kv := by simpa using hkv
        subst ha'
        exact (List.pairwise_cons.mp hp).1 b hb
    rw [List.foldl_cons, hput, ih (acc ++ [kv]) hp.of_cons hlt']
    simp

lemma decode_encode (a : Account) : decodeAccount (encodeAccount a) = a := rfl

lemma unmarshal_marshal (t : List (String × Account)) (hp : t.Pairwise keyLt) :
    unmarshalAccounts (marshalAccounts t) = some t := by
  show some (((t.map (fun kv => (kv.1, encodeAccount kv.2))).foldl
      (fun m kv => putEntry kv.1 (decodeAccount kv.2) m) [])) = some t
  rw [List.foldl_map]
  simp only [decode_encode]
  rw [foldl_putEntry_eq_append t [] hp (by simp)]
  simp

/-! ## Claim theorems -/

/-- C3: the Register request body carries no `allowfrom` field when the
input list is empty (the body is the JSON encoding of a nil `*Register`,
i.e. `null`), and carries `allowfrom` equal to the input list, element
for element and in order, when the input list is non-empty. -/
theorem register_allowfrom_field (c : Client) (goos goarch : String)
    (af : List String) :
    (c.registerRequest goos goarch (some af)).bodyField "allowfrom"
      = if af = [] then none else some (.arr (af.map .str)) := by
  cases af with
  | nil => rfl
  | cons hd tl =>
    simp [Client.registerRequest, lenGo, newRequest, Request.bodyField,
      encodePayload, Json.getField, jsonField]

/-- C4: the Update request carries `X-Api-User` equal to the record's
username, `X-Api-Key` equal to the record's password, and a JSON body
whose `subdomain` field is the record's subdomain and whose `txt` field
is the supplied TXT value. -/
theorem update_request_auth_and_body (c : Client) (goos goarch : String)
    (account : Account) (value : String) :
    getHeader (c.updateRequest goos goarch account value).headers "X-Api-User"
        = some account.username
    ∧ getHeader (c.updateRequest goos goarch account value).headers "X-Api-Key"
        = some account.password
    ∧ (c.updateRequest goos goarch account value).bodyField "subdomain"
        = some (.str account.subDomain)
    ∧ (c.updateRequest goos goarch account value).bodyField "txt"
        = some (.str value) :=
  ⟨rfl, rfl, rfl, rfl⟩

/-- C5: after `Put(d, r)` (which itself returns a nil error), `Fetch(d)`
returns `r` unchanged with a nil error, whatever record was previously
staged under `d`; neither operation involves the file system, so no
`Save` is needed. -/
theorem put_then_fetch_roundtrip (f : File) (d : String) (r : Account) :
    (f.Put d r).1.Fetch d = (r, none) ∧ (f.Put d r).2 = none := by
  refine ⟨?_, rfl⟩
  simp [File.Fetch, File.Put, lookupEntry_putEntry_self]

/-- C7: `NewFile` never fails — it always returns a `File` — and both a
path `os.ReadFile` cannot read and a file whose bytes are not valid JSON
yield the empty in-memory table. -/
theorem newfile_missing_or_malformed_empty (path : String) (mode : Nat)
    (fs : FS) :
    (fs path = none → NewFile path mode fs = ⟨path, mode, []⟩)
    ∧ (fs path = some .invalid → NewFile path mode fs = ⟨path, mode, []⟩) := by
  constructor <;> intro h <;> simp [NewFile, h]

/-- Closed instance of `newfile_missing_or_malformed_empty` at a missing
path and at a file holding invalid JSON. -/
theorem newfile_missing_or_malformed_empty_witness :
    ((fun _ => none : FS) "accounts.json" = none
      ∧ NewFile "accounts.json" 384 (fun _ => none) = ⟨"accounts.json", 384, []⟩)
    ∧ ((fun _ => some .invalid : FS) "accounts.json" = some .invalid
      ∧ NewFile "accounts.json" 384 (fun _ => some .invalid)
          = ⟨"accounts.json", 384, []⟩) :=
  ⟨⟨rfl, (newfile_missing_or_malformed_empty "accounts.json" 384 (fun _ => none)).1 rfl⟩,
   ⟨rfl, (newfile_missing_or_malformed_empty "accounts.json" 384 (fun _ => some .invalid)).2 rfl⟩⟩

/-- C9 counterexample: the claim says the requests constructed for a nil
allow-from slice and for an explicitly empty allow-from slice differ; in
fact `RegisterAccount` guards on `len(allowFrom) > 0`, which is 0 for
both, so the two constructed requests are identical. -/
theorem register_nil_eq_empty_request :
    Client.registerRequest ⟨"https://example.org"⟩ "linux" "amd64" none
      = Client.registerRequest ⟨"https://example.org"⟩ "linux" "amd64" (some []) :=
  rfl

/-- C9 amended: a nil allow-from slice and an explicitly empty one
produce identical Register requests (both a JSON `null` body with no
`allowfrom` field); only a non-empty list is distinguished at the wire
level (see `register_allowfrom_field`). -/
theorem register_nil_empty_indistinguishable (c : Client)
    (goos goarch : String) :
    c.registerRequest goos goarch none = c.registerRequest goos goarch (some []) :=
  rfl

/-- C1: a non-2xx response makes both Register and Update surface a
`ClientError` (via `errors.As`) whose status and body are exactly the
response's status and body; a 2xx response makes Update succeed for any
body whatsoever — `Client.do` with a nil result pointer returns before
any JSON decoding. -/
theorem non2xx_remote_error_and_update_2xx_ok (c : Client)
    (r : HTTPResponse) (um : String → Option Account) :
    (r.status / 100 ≠ 2 →
      errClientOf (Client.UpdateTXTRecord none (.ok r))
          = some ⟨"response error", r.status, r.body⟩
      ∧ errClientOf (c.RegisterAccount none (.ok r) um).2
          = some ⟨"response error", r.status, r.body⟩)
    ∧ (r.status / 100 = 2 → Client.UpdateTXTRecord none (.ok r) = none) := by
  constructor
  · intro h
    constructor
    · simp [Client.UpdateTXTRecord, Client.doRequest, h, errClientOf,
        errorsAsClientError, newClientError]
    · simp [Client.RegisterAccount, Client.doRequest, h, errClientOf,
        errorsAsClientError, newClientError]
  · intro h
    simp [Client.UpdateTXTRecord, Client.doRequest, h]

/-- Closed instance of `non2xx_remote_error_and_update_2xx_ok` at a 400
response with a concrete body and at a 200 response. -/
theorem non2xx_remote_error_and_update_2xx_ok_witness :
    ((400 : Nat) / 100 ≠ 2
      ∧ errClientOf (Client.UpdateTXTRecord none (.ok ⟨400, "errbody"⟩))
          = some ⟨"response error", 400, "errbody"⟩)
    ∧ ((200 : Nat) / 100 = 2
      ∧ Client.UpdateTXTRecord none (.ok ⟨200, "okbody"⟩) = none) :=
  ⟨⟨by decide,
    ((non2xx_remote_error_and_update_2xx_ok ⟨"https://example.org"⟩ ⟨400, "errbody"⟩
      (fun _ => none)).1 (by decide)).1⟩,
   ⟨rfl,
    (non2xx_remote_error_and_update_2xx_ok ⟨"https://example.org"⟩ ⟨200, "okbody"⟩
      (fun _ => none)).2 rfl⟩⟩

/-- C2: a successful Register (2xx response whose body decodes) returns
the decoded record with its `server_url` overwritten by the client's
configured base endpoint, whatever `server_url` the decoded body
carried. -/
theorem register_stamps_server_url (c : Client) (r : HTTPResponse)
    (um : String → Option Account) (a : Account)
    (h2 : r.status / 100 = 2) (hdec : um r.body = some a) :
    c.RegisterAccount none (.ok r) um = ({ a with serverURL := c.baseURL }, none) := by
  simp [Client.RegisterAccount, Client.doRequest, h2, hdec]

/-- Closed instance of `register_stamps_server_url`: the decoded record
carries a foreign `server_url`, and the returned record carries the
client's base endpoint instead. -/
theorem register_stamps_server_url_witness :
    ((201 : Nat) / 100 = 2
      ∧ (fun _ => some (⟨"d.example", "s.example", "u", "p", "https://attacker.example"⟩ : Account)
          : String → Option Account) "respbody"
        = some ⟨"d.example", "s.example", "u", "p", "https://attacker.example"⟩)
    ∧ Client.RegisterAccount ⟨"https://example.org"⟩ none (.ok ⟨201, "respbody"⟩)
        (fun _ => some ⟨"d.example", "s.example", "u", "p", "https://attacker.example"⟩)
      = (⟨"d.example", "s.example", "u", "p", "https://example.org"⟩, none) :=
  ⟨⟨rfl, rfl⟩,
   register_stamps_server_url ⟨"https://example.org"⟩ ⟨201, "respbody"⟩
     (fun _ => some ⟨"d.example", "s.example", "u", "p", "https://attacker.example"⟩)
     ⟨"d.example", "s.example", "u", "p", "https://attacker.example"⟩ rfl rfl⟩

/-- C8 counterexample: the claim says a decode error is a distinct error
kind from a Remote Error; in fact both are `*ClientError` values — the
caller's `errors.As` kind test succeeds on both a non-2xx failure and a
2xx-with-undecodable-body failure, so they are the same error kind. -/
theorem decode_and_remote_error_same_kind :
    (Client.UpdateTXTRecord none (.ok ⟨400, "errbody"⟩)).map GoError.isClientErrorType
        = some true
    ∧ ((Client.RegisterAccount ⟨"https://example.org"⟩ none (.ok ⟨200, "notjson"⟩)
        (fun _ => none)).2).map GoError.isClientErrorType = some true :=
  ⟨rfl, rfl⟩

/-- C8 amended: transport errors are a distinct kind (no `ClientError`
in their chain), while remote errors and decode errors both surface as
`ClientError`s; those two are nonetheless mutually distinguishable by
their observable contents — a remote error carries the non-2xx status
and message `response error`, a decode error the 2xx status and message
`failed to unmarshal response` — not by their error type. -/
theorem failure_kinds_distinguishable (e : GoError) (r1 r2 : HTTPResponse)
    (um : String → Option Account)
    (htr : errorsAsClientError e = none)
    (h1 : r1.status / 100 ≠ 2)
    (h2 : r2.status / 100 = 2) (hdec : um r2.body = none) :
    doErrClient (Client.doRequest (.error e) (some um)) = none
    ∧ doErrClient (Client.doRequest (.ok r1) (some um))
        = some ⟨"response error", r1.status, r1.body⟩
    ∧ doErrClient (Client.doRequest (.ok r2) (some um))
        = some ⟨"failed to unmarshal response", r2.status, r2.body⟩
    ∧ (⟨"response error", r1.status, r1.body⟩ : ClientError)
        ≠ ⟨"failed to unmarshal response", r2.status, r2.body⟩ := by
  refine ⟨?_, ?_, ?_, ?_⟩
  · simp [Client.doRequest, doErrClient, errorsAsClientError, htr]
  · simp [Client.doRequest, doErrClient, h1, errorsAsClientError, newClientError]
  · simp [Client.doRequest, doErrClient, h2, hdec, errorsAsClientError, newClientError]
  · intro hcontra
    simp at hcontra

/-- Closed instance of `failure_kinds_distinguishable` at a concrete
transport error, a 400 response, and a 200 response with an undecodable
body. -/
theorem failure_kinds_distinguishable_witness :
    (errorsAsClientError (.basic "dial tcp: connection refused") = none
      ∧ (400 : Nat) / 100 ≠ 2
      ∧ (200 : Nat) / 100 = 2
      ∧ (fun _ => none : String → Option Account) "notjson" = none)
    ∧ (doErrClient (Client.doRequest (.error (.basic "dial tcp: connection refused"))
          (some (fun _ => none))) = none
      ∧ doErrClient (Client.doRequest (.ok ⟨400, "errbody"⟩) (some (fun _ => none)))
          = some ⟨"response error", 400, "errbody"⟩
      ∧ doErrClient (Client.doRequest (.ok ⟨200, "notjson"⟩) (some (fun _ => none)))
          = some ⟨"failed to unmarshal response", 200, "notjson"⟩
      ∧ (⟨"response error", 400, "errbody"⟩ : ClientError)
          ≠ ⟨"failed to unmarshal response", 200, "notjson"⟩) :=
  ⟨⟨rfl, by decide, rfl, rfl⟩,
   failure_kinds_distinguishable (.basic "dial tcp: connection refused")
     ⟨400, "errbody"⟩ ⟨200, "notjson"⟩ (fun _ => none) rfl (by decide) rfl rfl⟩

/-- C10: whenever `RegisterAccount` returns a non-nil error — from
request construction, transport, a non-2xx response, or a decode
failure — the `Account` returned alongside it is the zero record. -/
theorem register_error_zero_account (c : Client) (reqErr : Option GoError)
    (resp : Except GoError HTTPResponse) (um : String → Option Account)
    (h : (c.RegisterAccount reqErr resp um).2 ≠ none) :
    (c.RegisterAccount reqErr resp um).1 = Account.zero := by
  cases reqErr with
  | some e => rfl
  | none =>
    cases hdo : Client.doRequest resp (some um) with
    | error e => simp [Client.RegisterAccount, hdo]
    | ok oa =>
      exact absurd (by simp [Client.RegisterAccount, hdo]) h

/-- Closed instance of `register_error_zero_account` at a failing
request construction. -/
theorem register_error_zero_account_witness :
    (Client.RegisterAccount ⟨"https://example.org"⟩ (some (.basic "bad request"))
        (.ok ⟨200, "okbody"⟩) (fun _ => none)).2 ≠ none
    ∧ (Client.RegisterAccount ⟨"https://example.org"⟩ (some (.basic "bad request"))
        (.ok ⟨200, "okbody"⟩) (fun _ => none)).1 = Account.zero :=
  ⟨by decide,
   register_error_zero_account ⟨"https://example.org"⟩ (some (.basic "bad request"))
     (.ok ⟨200, "okbody"⟩) (fun _ => none) (by decide)⟩

/-- C6: a successful `Save` followed by constructing a new file-backed
storage from the same path reproduces the saved domain-to-record table
exactly.  The `Pairwise keyLt` hypothesis is the representation
invariant of the model: a Go map, being unordered, is represented by its
canonical key-sorted association list (the order `json.Marshal` emits),
and every table built by `File.Put`/`NewFile` satisfies it. -/
theorem save_then_newfile_roundtrip (f : File) (fs : FS)
    (hp : f.accounts.Pairwise keyLt) :
    (NewFile f.path f.mode (f.Save fs)).accounts = f.accounts := by
  simp [NewFile, File.Save, unmarshal_marshal f.accounts hp]

/-- Closed instance of `save_then_newfile_roundtrip` at a two-domain
table. -/
theorem save_then_newfile_roundtrip_witness :
    ([("alpha.example", ⟨"d1.example", "s1.example", "u1", "p1", "https://auth.example"⟩),
      ("beta.example", ⟨"d2.example", "s2.example", "u2", "p2", "https://auth.example"⟩)]
        : List (String × Account)).Pairwise keyLt
    ∧ (NewFile "accounts.json" 384
        (File.Save
          ⟨"accounts.json", 384,
           [("alpha.example", ⟨"d1.example", "s1.example", "u1", "p1", "https://auth.example"⟩),
            ("beta.example", ⟨"d2.example", "s2.example", "u2", "p2", "https://auth.example"⟩)]⟩
          (fun _ => none))).accounts
      = [("alpha.example", ⟨"d1.example", "s1.example", "u1", "p1", "https://auth.example"⟩),
         ("beta.example", ⟨"d2.example", "s2.example", "u2", "p2", "https://auth.example"⟩)] := by
  have hp : ([("alpha.example", ⟨"d1.example", "s1.example", "u1", "p1", "https://auth.example"⟩),
      ("beta.example", ⟨"d2.example", "s2.example", "u2", "p2", "https://auth.example"⟩)]
        : List (String × Account)).Pairwise keyLt := by
    simp [keyLt]
    decide
  exact ⟨hp,
    save_then_newfile_roundtrip
      ⟨"accounts.json", 384,
       [("alpha.example", ⟨"d1.example", "s1.example", "u1", "p1", "https://auth.example"⟩),
        ("beta.example", ⟨"d2.example", "s2.example", "u2", "p2", "https://auth.example"⟩)]⟩
      (fun _ => none) hp⟩

end GoAcmeDns
